import Mathlib

/-
Verification development for deid_export/container_export.py.

The Python module exports a hierarchical imaging-data tree (project,
subject, session, acquisition) from an origin store to a destination
store.  This file gives a shallow embedding of the functions the claims
concern and proves theorems about them.

Python dictionaries are modelled as association lists over a small value
type `Val`; getting a missing key yields `Val.vNone`, mirroring
`dict.get`.  Fallible code returns `Except String`, with the error string
naming the Python exception class that the corresponding code raises.
-/

/-- Subset of Python values appearing in the metadata-handling code of
container_export.py: None, strings, integers, lists of strings (the shape
whitelist configurations use) and string-keyed dictionaries. -/
inductive Val where
  | vNone : Val
  | vStr (s : String) : Val
  | vInt (n : Int) : Val
  | vStrList (l : List String) : Val
  | vDict (d : List (String × Val)) : Val

/-- A Python dictionary with string keys, in insertion order. -/
abbrev PyDict := List (String × Val)

/-- Value of `d.get(k)`: the first binding of `k`, `None` when the key is
absent. -/
def dget : PyDict → String → Val
  | [], _ => .vNone
  | (k', v) :: rest, k => if k' == k then v else dget rest k

/-- Value of `d.get(k)` distinguishing an absent key (`none`) from a key
explicitly bound to `None`; needed for `d.get(k, default)`. -/
def dget_opt : PyDict → String → Option Val
  | [], _ => none
  | (k', v) :: rest, k => if k' == k then some v else dget_opt rest k

/-- Assignment `d[k] = v`: replaces the first binding of `k` in place, or
appends a new binding, as a Python dict does. -/
def dset : PyDict → String → Val → PyDict
  | [], k, v => [(k, v)]
  | (k', v') :: rest, k, v =>
    if k' == k then (k, v) :: rest else (k', v') :: dset rest k v

/-- Membership test `k in d.keys()`. -/
def dmem : PyDict → String → Bool
  | [], _ => false
  | (k', _) :: rest, k => k' == k || dmem rest k

/-- Key list `d.keys()`. -/
def dkeys (d : PyDict) : List String :=
  d.map Prod.fst

/-- Python truthiness for the modelled values (`if not x`). -/
def Val.truthy : Val → Bool
  | .vNone => false
  | .vStr s => !s.isEmpty
  | .vInt n => n != 0
  | .vStrList l => !l.isEmpty
  | .vDict d => !d.isEmpty

/-- Attribute access such as `container.id` or `container.label` on a
container snapshot, for attributes whose values are strings. -/
def attr_str (d : PyDict) (k : String) : String :=
  match dget d k with
  | .vStr s => s
  | _ => ""

/-- hash_string (container_export.py lines 33-43).  The body calls
`hashlib.sha1(input_str.encode()).hexdigest()`; `hashlib` is Python's
standard library, external to this repository, so the digest is modelled
as an unspecified deterministic total function on strings.  No claim
below depends on concrete digest values, only on this being a function. -/
def hash_string (input_str : String) : String :=
  "sha1-" ++ input_str

/-- Lowercasing used by `.lower()` in the whitelist parsing; written over
the character list so that concrete instances reduce in the kernel. -/
def str_lower (s : String) : String :=
  String.mk (s.data.map Char.toLower)

/-- META_WHITELIST_DICT (container_export.py lines 23-27), as the partial
map `dict.get` reads from it: `none` for a container type outside the
three keys. -/
def META_WHITELIST_DICT (container_type : String) : Option (List String) :=
  if container_type == "acquisition" then
    some ["timestamp", "timezone", "uid"]
  else if container_type == "subject" then
    some ["firstname", "lastname", "sex", "cohort", "ethnicity", "race", "species", "strain"]
  else if container_type == "session" then
    some ["age", "operator", "timestamp", "timezone", "uid", "weight"]
  else
    none

/-- Whitelist parsing, create_metadata_dict lines 137-153.  Returns the
pair (meta_wl, info_wl).  A `metadata` entry equal to the string "all"
expands to `list(META_WHITELIST_DICT.get(container_type))`, which raises
TypeError when the container type is not a key (list(None)).  An `info`
entry equal to "all" appends the key "info" to meta_wl. -/
def parse_whitelists (container_type : String) (container_config : Val) :
    Except String (List String × List String) :=
  match container_config with
  | .vDict cc =>
    match dget cc "whitelist" with
    | .vDict wd =>
      let meta0 : Except String (List String) :=
        match dget wd "metadata" with
        | .vStrList l => .ok l
        | .vStr s =>
          if str_lower s == "all" then
            match META_WHITELIST_DICT container_type with
            | some wl => .ok wl
            | none => .error "TypeError"
          else .ok []
        | _ => .ok []
      match meta0 with
      | .error e => .error e
      | .ok mw =>
        match dget wd "info" with
        | .vStrList l => .ok (mw, l)
        | .vStr s => if str_lower s == "all" then .ok (mw ++ ["info"], []) else .ok (mw, [])
        | _ => .ok (mw, [])
    | _ => .ok ([], [])
  | _ => .ok ([], [])

/-- Filtered copy of the origin info map, create_metadata_dict lines
161-164: starting from the empty dict written at line 155, copy every
origin info entry whose key is in the explicit info whitelist. -/
def copy_info_whitelist (oi : PyDict) (info_wl : List String) : PyDict :=
  oi.foldl (fun acc kv => if info_wl.contains kv.1 then dset acc kv.1 kv.2 else acc) []

/-- Top-level field copy loop, create_metadata_dict lines 168-173: for
each whitelisted item, copy the origin field when it is in the type's
fixed whitelist, truthy on the origin, and not already a key of the
payload.  When META_WHITELIST_DICT has no entry for the container type,
`item in meta_whitelist` is `item in None` and raises TypeError. -/
def copy_meta_fields (origin : PyDict) (meta_whitelist : Option (List String)) :
    List String → PyDict → Except String PyDict
  | [], md => .ok md
  | item :: rest, md =>
    match meta_whitelist with
    | none => .error "TypeError"
    | some wl =>
      if wl.contains item && (dget origin item).truthy && !(dmem md item) then
        copy_meta_fields origin meta_whitelist rest (dset md item (dget origin item))
      else
        copy_meta_fields origin meta_whitelist rest md

/-- Info-building phase of create_metadata_dict, lines 155-164: start
from a fresh dict whose 'info' is empty; when "info" is in meta_wl (the
info whitelist was "all"), alias the whole origin info value into it,
otherwise copy only explicitly whitelisted info keys. -/
def build_meta_dict1 (origin_container : PyDict) (meta_wl info_wl : List String) : PyDict :=
  let base : PyDict := [("info", .vDict [])]
  if meta_wl.contains "info" then
    dset base "info" (dget origin_container "info")
  else
    match dget origin_container "info" with
    | .vDict oi => dset base "info" (.vDict (copy_info_whitelist oi info_wl))
    | _ => base

/-- Stamp and field-copy phase of create_metadata_dict, lines 166-175:
write `meta_dict['info']['export'] = ... origin_id ...` (TypeError when
`meta_dict['info']` is not a dict), then run the top-level copy loop; the
second result component is the origin snapshot after the call, which the
alias of line 158 exposed to the stamp exactly when `'info' in meta_wl`. -/
def stamp_payload (origin_container : PyDict) (container_type : String)
    (meta_wl info_wl : List String) (ids : String) : Except String (PyDict × PyDict) :=
  match dget (build_meta_dict1 origin_container meta_wl info_wl) "info" with
  | .vDict d =>
    let stamped := dset d "export" (.vDict [("origin_id", .vStr (hash_string ids))])
    let meta_dict2 := dset (build_meta_dict1 origin_container meta_wl info_wl) "info" (.vDict stamped)
    let origin_after :=
      if meta_wl.contains "info" then
        dset origin_container "info" (.vDict stamped)
      else
        origin_container
    match copy_meta_fields origin_container (META_WHITELIST_DICT container_type)
        meta_wl meta_dict2 with
    | .error e => .error e
    | .ok meta_dict3 => .ok (meta_dict3, origin_after)
  | _ => .error "TypeError"

/-- create_metadata_dict (container_export.py lines 111-175).  The result
pairs the metadata payload with the origin snapshot as it stands after
the call: line 158 (`meta_dict['info'] = origin_container.get('info')`)
aliases the origin's info object, so the stamp written at line 167
through that alias also mutates the origin's info map; the second
component records that effect.  Error strings name the exception the
Python code raises: ValueError for a missing id (line 132), TypeError
when line 167 assigns into a non-dict info value or when line 172 tests
membership in None, AttributeError when a truthy non-string id reaches
`.encode()` inside hash_string at line 167 (the id's string match sits
here before the pure info-building phase; the observable outcome is the
same). -/
def create_metadata_dict (origin_container : PyDict) (container_type : String)
    (container_config : Val) : Except String (PyDict × PyDict) :=
  if !(dget origin_container "id").truthy then
    .error "ValueError"
  else
    match parse_whitelists container_type container_config with
    | .error e => .error e
    | .ok (meta_wl, info_wl) =>
      match dget origin_container "id" with
      | .vStr ids => stamp_payload origin_container container_type meta_wl info_wl ids
      | _ => .error "AttributeError"

/-- Modelled from the spec: flywheel's container `update` method lives in
the external SDK, not in this repository.  Per the spec (section 4.2),
updating a matched container with the reconciler payload is a
"non-destructive merge, never deletes untouched fields": each top-level
payload key overwrites the container's field, except `info`, whose
top-level keys are merged into the existing info map. -/
def merge_into (old : PyDict) (new : PyDict) : PyDict :=
  new.foldl (fun o kv => dset o kv.1 kv.2) old

/-- Single step of `container_update`: apply one payload binding to the
container snapshot. -/
def cu_step (acc : PyDict) (kv : String × Val) : PyDict :=
  if kv.1 == "info" then
    match dget acc "info", kv.2 with
    | .vDict oldi, .vDict newi => dset acc "info" (.vDict (merge_into oldi newi))
    | _, _ => dset acc "info" kv.2
  else
    dset acc kv.1 kv.2

/-- Modelled from the spec: `dest.update(meta_dict)` for a destination
container (see `merge_into`). -/
def container_update (c : PyDict) (md : PyDict) : PyDict :=
  md.foldl cu_step c

/-- Replace the first element satisfying `p` by its image under `f`; the
effect of updating the container that `find_first` returned. -/
def update_first (p : PyDict → Bool) (f : PyDict → PyDict) : List PyDict → List PyDict
  | [] => []
  | d :: rest => if p d then f d :: rest else d :: update_first p f rest

/-- Label equality as the destination query engine compares the quoted
label value: both sides strings and equal.  `quote_numeric_string` wraps
all-digit labels in literal quotes precisely so that the engine performs
this string comparison. -/
def val_label_eq : Val → Val → Bool
  | .vStr a, .vStr b => a == b
  | _, _ => false

/-- Test that an info value is a dict carrying
`export.origin_id == h`, the second conjunct of the session/acquisition
match query. -/
def info_origin_id_is : Val → String → Bool
  | .vDict i, h =>
    match dget i "export" with
    | .vDict e =>
      match dget e "origin_id" with
      | .vStr x => x == h
      | _ => false
    | _ => false
  | _, _ => false

/-- Match predicate of the query built at lines 237-240 and 275-278:
`label=<new_label>,info.export.origin_id="<hash>"`. -/
def session_matches (new_label : Val) (origin_id_hash : String) (s : PyDict) : Bool :=
  val_label_eq (dget s "label") new_label && info_origin_id_is (dget s "info") origin_id_hash

/-- Effective session label, line 236: `session_config.get('label',
origin_session.label)` after the falsy config was replaced by an empty
dict at lines 234-235. -/
def effective_label (session_config : Val) (origin_session : PyDict) : Val :=
  match session_config with
  | .vDict c => (dget_opt c "label").getD (.vStr (attr_str origin_session "label"))
  | _ => .vStr (attr_str origin_session "label")

/-- The match predicate find_or_create_subject_session uses for a given
origin session and config. -/
def reconcile_query (origin_session : PyDict) (session_config : Val) : PyDict → Bool :=
  session_matches (effective_label session_config origin_session)
    (hash_string (attr_str origin_session "id"))

/-- find_or_create_subject_session (container_export.py lines 218-252),
acting on the destination subject's session list.  The reloads at lines
232-233 are identities on these snapshots.  `find_first` returns the
first session matching the label plus origin-id-hash query; if none is
found a session is added with the effective label and the reconciler
payload (line 247), otherwise the found session is updated with the
payload (line 250). -/
def find_or_create_subject_session (origin_session : PyDict) (dest_sessions : List PyDict)
    (session_config : Val) : Except String (List PyDict) :=
  let q := reconcile_query origin_session session_config
  let found := dest_sessions.find? q
  match create_metadata_dict origin_session "session" session_config with
  | .error e => .error e
  | .ok r =>
    match found with
    | none => .ok (dest_sessions ++ [dset r.1 "label" (effective_label session_config origin_session)])
    | some _ => .ok (update_first q (fun t => container_update t r.1) dest_sessions)

/-- Iterated reconciliation: run find_or_create_subject_session `n` times
from a given destination session list. -/
def runStar (origin_session : PyDict) (session_config : Val) :
    Nat → List PyDict → Except String (List PyDict)
  | 0, ss => .ok ss
  | n + 1, ss =>
    match find_or_create_subject_session origin_session ss session_config with
    | .error e => .error e
    | .ok ss' => runStar origin_session session_config n ss'

/-- Count of sessions matching `q` in a reconciliation result, `none`
when the run raised. -/
def countMatchesE (q : PyDict → Bool) : Except String (List PyDict) → Option Nat
  | .ok ss => some (ss.countP (fun s => q s))
  | .error _ => none

/-- Length of a reconciliation result, `none` when the run raised. -/
def lengthE : Except String (List PyDict) → Option Nat
  | .ok ss => some ss.length
  | .error _ => none

/-- Well-formedness of an origin snapshot's info map: Python dicts cannot
carry duplicate keys, so a genuine container snapshot satisfies this. -/
def info_nodup (origin : PyDict) : Prop :=
  match dget origin "info" with
  | .vDict oi => (dkeys oi).Nodup
  | _ => True

/-- find_or_create_session_acquisition (container_export.py lines
255-291), acting on the destination session's acquisition list.  Note:
the query at lines 275-278 and the creation at line 286 both use
`origin_acquisition.label`; `acquisition_config` is never consulted for a
label override, although the docstring (lines 257-258) says a 'label'
entry of the config is used when provided. -/
def find_or_create_session_acquisition (origin_acquisition : PyDict)
    (dest_acquisitions : List PyDict) (acquisition_config : Val) :
    Except String (List PyDict) :=
  let lbl : Val := .vStr (attr_str origin_acquisition "label")
  let q := session_matches lbl (hash_string (attr_str origin_acquisition "id"))
  let found := dest_acquisitions.find? q
  match create_metadata_dict origin_acquisition "acquisition" acquisition_config with
  | .error e => .error e
  | .ok r =>
    match found with
    | none => .ok (dest_acquisitions ++ [dset r.1 "label" lbl])
    | some _ => .ok (update_first q (fun t => container_update t r.1) dest_acquisitions)

/-- A file on an origin container: its name and its flywheel type. -/
structure FFile where
  name : String
  ftype : String

/-- The part of a FileExporter job descriptor the claims speak about.
The FileExporter class lives in deid_export/file_exporter.py, which is
not under src/.  Modelled from the spec: per section 4.3,
"emit a FileExportJob with destination filename = remap[name] if present
else name", so the constructor defaults the destination filename to the
origin filename when the remap supplies none. -/
structure FileExporterJob where
  origin_filename : String
  export_filename : String

/-- initialize_container_file_export (container_export.py lines 294-325):
for each origin file, look up the remapped name
(`filename_dict.get(container_file.name, None)`, line 312) and, when the
file's type is in the allowlist, append one job. -/
def initialize_container_file_export (origin_files : List FFile)
    (filename_dict : List (String × String)) (filetype_list : List String) :
    List FileExporterJob :=
  match origin_files with
  | [] => []
  | f :: rest =>
    let export_filename : Option String :=
      (filename_dict.find? (fun p => p.1 == f.name)).map Prod.snd
    (if filetype_list.contains f.ftype then
      [{ origin_filename := f.name, export_filename := export_filename.getD f.name }]
     else []) ++ initialize_container_file_export rest filename_dict filetype_list

/-- Origin acquisition: identifier and files. -/
structure Acq where
  id : String
  files : List FFile

/-- Origin session: identifier, its own files and its acquisitions. -/
structure Sess where
  id : String
  files : List FFile
  acquisitions : List Acq

/-- Origin subject: identifier, its own files and its sessions. -/
structure Subj where
  id : String
  files : List FFile
  sessions : List Sess

/-- Origin project: identifier, its own files and its subjects. -/
structure Proj where
  id : String
  files : List FFile
  subjects : List Subj

/-- One row of the export report (the FileExporter status dict projected
to the fields the claims mention). -/
structure Row where
  origin_filename : String
  state : String
  errors : Option String

/-- Files of a container whose type is in the allowlist. -/
def allowed_files (filetype_list : List String) (files : List FFile) : List FFile :=
  files.filter (fun f => filetype_list.contains f.ftype)

/-- Job list built by SessionExporter.initialize_files (lines 420-478)
for one session: project files when requested, then subject files when
requested, then session files, then each acquisition's files, each
through initialize_container_file_export with an empty filename remap
(export_session passes no filename_dict). -/
def collect_session_jobs (proj : Proj) (subj : Subj) (sess : Sess)
    (file_types : List String) (project_files subject_files : Bool) : List FileExporterJob :=
  (if project_files then initialize_container_file_export proj.files [] file_types else []) ++
  (if subject_files then initialize_container_file_export subj.files [] file_types else []) ++
  initialize_container_file_export sess.files [] file_types ++
  sess.acquisitions.foldl
    (fun acc a => acc ++ initialize_container_file_export a.files [] file_types) []

/-- Outcome of one file job.  Modelled from the spec: the per-job
de-identify-and-transfer (FileExporter.local_deid_export, in
deid_export/file_exporter.py, not under src/) is retried per policy and
"never aborts anything"; each worker records a final state of success or
error (section 4.5, section 7).  `transfer_error` says which origin
filenames fail. -/
def job_row (transfer_error : String → Bool) (j : FileExporterJob) : Row :=
  if transfer_error j.origin_filename then
    { origin_filename := j.origin_filename, state := "error", errors := some "FileExportError" }
  else
    { origin_filename := j.origin_filename, state := "success", errors := none }

/-- export_session (container_export.py lines 503-536): build the job
list, run every job, and return the report rows; when fewer than one row
was produced, return `None` (line 536) instead of a report. -/
def export_session_model (proj : Proj) (subj : Subj) (sess : Sess)
    (file_types : List String) (project_files subject_files : Bool)
    (transfer_error : String → Bool) : Option (List Row) :=
  let jobs := collect_session_jobs proj subj sess file_types project_files subject_files
  let rows := jobs.map (job_row transfer_error)
  if rows.length ≥ 1 then some rows else none

/-- All-error rows for one container's allowed files, the inner
`_append_file_status_dicts` of get_session_error_df (lines 545-558). -/
def error_rows (error_msg : String) (file_types : List String) (files : List FFile) : List Row :=
  (allowed_files file_types files).map
    (fun f => { origin_filename := f.name, state := "error", errors := some error_msg })

/-- get_session_error_df (container_export.py lines 539-576): synthesize
all-error rows for the files that would have been exported: project files
when requested, subject files when requested, session files, acquisition
files. -/
def get_session_error_df (proj : Proj) (subj : Subj) (sess : Sess) (error_msg : String)
    (file_types : List String) (project_files subject_files : Bool) : List Row :=
  (if project_files then error_rows error_msg file_types proj.files else []) ++
  (if subject_files then error_rows error_msg file_types subj.files else []) ++
  error_rows error_msg file_types sess.files ++
  sess.acquisitions.foldl (fun acc a => acc ++ error_rows error_msg file_types a.files) []

/-- The inner `_export_session` of export_container (lines 594-616).
With an upstream error message it synthesizes the error report; the call
at line 598 passes NONE of filetypes, project_files or subject_files, so
get_session_error_df runs with its defaults: both flags False and — via
`filetypes=None` at lines 539-541 — the hard-coded allowlist ["dicom"],
regardless of the template's configured file_types.  Otherwise it runs
export_session with the template allowlist.  Line 609 then evaluates
`session_df['state'].value_counts().get('error', 0)` BEFORE the DataFrame
check: on `None` this raises TypeError, and on an empty DataFrame (no
'state' column) it raises KeyError.  On success it returns the error-row
count together with the rows appended to the report csv. -/
def export_session_inner (proj : Proj) (subj : Subj) (sess : Sess)
    (file_types : List String) (project_files subject_files : Bool)
    (transfer_error : String → Bool) (sess_error_msg : Option String) :
    Except String (Nat × List Row) :=
  let df : Option (List Row) :=
    match sess_error_msg with
    | some m => some (get_session_error_df proj subj sess m ["dicom"] false false)
    | none => export_session_model proj subj sess file_types project_files subject_files transfer_error
  match df with
  | none => .error "TypeError"
  | some [] => .error "KeyError"
  | some rows => .ok (rows.countP (fun r => r.state == "error"), rows)

/-- One pending `_export_session` call: the subject it belongs to, the
session, and the project_files/subject_files flags it will be passed. -/
abbrev SessionCall := Subj × Sess × Bool × Bool

/-- Session loop of `_export_subject` (lines 637-644): the first session
receives the incoming project_files flag and subject_files=True; both
flags are set False after the first iteration. -/
def session_calls_go (su : Subj) : List Sess → Bool → Bool → List SessionCall
  | [], _, _ => []
  | se :: rest, pf, sf => (su, se, pf, sf) :: session_calls_go su rest false false

/-- Calls `_export_subject(subject_obj, project_files)` makes, in order. -/
def subject_session_calls (project_files : Bool) (su : Subj) : List SessionCall :=
  session_calls_go su su.sessions project_files true

/-- Subject loop of the project scope (lines 650-655): the first subject
receives project_files=True, and the flag is set False after each
subject. -/
def project_calls_go : List Subj → Bool → List SessionCall
  | [], _ => []
  | su :: rest, pf => subject_session_calls pf su ++ project_calls_go rest false

/-- All `_export_session` calls a project-scope export makes, in order. -/
def project_scope_calls (subjects : List Subj) : List SessionCall :=
  project_calls_go subjects true

/-- The `_get_subject_template` closure (lines 618-628).  Deriving the
per-subject template calls deid_template.get_updated_template
(deid_export/deid_template.py, not under src/); modelled from the spec:
the per-subject customization may fail (TemplateDerivationError, spec
section 7), and `derive_fails` is the oracle saying for which subjects it
does.  On success error_msg is None (line 624).  When the derivation
raises, the except handler at line 626 interpolates `subject.code`, where
`subject` is the loop variable of the PROJECT branch (line 652): under
project scope that variable is bound and the error message is built and
returned, but under subject or session scope the name `subject` was never
assigned, so the handler itself raises NameError and the run aborts.
`subject_bound` says whether that loop variable is bound. -/
def get_subject_template_msg (subject_bound : Bool) (derive_fails : Subj → Bool) (su : Subj) :
    Except String (Option String) :=
  if derive_fails su then
    if subject_bound then .ok (some "subject template error")
    else .error "NameError"
  else .ok none

/-- Session loop of `_export_subject` (lines 637-644) over its pending
calls.  `msg` is the state of the local `subj_error_msg` when the loop
runs: `none` when the name was never assigned (no remap DataFrame, the
branch at line 634 skipped), in which case evaluating
`sess_error_msg=subj_error_msg` at line 641 raises UnboundLocalError, a
NameError subclass, at the first session; `some m` when it was assigned
the value m (None for a successful derivation).  Error counts accumulate
and report rows append across calls (lines 609-615). -/
def run_session_calls (proj : Proj) (file_types : List String)
    (transfer_error : String → Bool) (msg : Option (Option String)) :
    List SessionCall → Nat → List Row → Except String (Nat × List Row)
  | [], acc, rows => .ok (acc, rows)
  | (su, se, pf, sf) :: rest, acc, rows =>
    match msg with
    | none => .error "NameError"
    | some m =>
      match export_session_inner proj su se file_types pf sf transfer_error m with
      | .error e => .error e
      | .ok (c, rs) =>
        run_session_calls proj file_types transfer_error msg rest (acc + c) (rows ++ rs)

/-- `_export_subject` (lines 630-645): when the remap DataFrame exists,
derive the per-subject template first — which itself raises NameError
when the derivation fails and the project-loop variable is unbound, see
get_subject_template_msg — then walk the subject's sessions with the
dedup flags; when the DataFrame does not exist, `subj_error_msg` stays
unbound for the loop. -/
def export_subject_model (proj : Proj) (file_types : List String)
    (transfer_error : String → Bool) (df_present subject_bound : Bool)
    (derive_fails : Subj → Bool) (su : Subj) (project_files : Bool) :
    Except String (Nat × List Row) :=
  match (if df_present then
          (get_subject_template_msg subject_bound derive_fails su).map some
         else .ok none) with
  | .error e => .error e
  | .ok msg =>
    run_session_calls proj file_types transfer_error msg
      (subject_session_calls project_files su) 0 []

/-- Subject loop of the project scope (lines 650-655) with results: the
first subject gets project_files=True, the flag is cleared after each
subject, and error counts accumulate across subjects; here the loop
variable `subject` is bound, so a failing template derivation is
downgraded to a message. -/
def project_scope_go (proj : Proj) (file_types : List String)
    (transfer_error : String → Bool) (derive_fails : Subj → Bool) (df_present : Bool) :
    List Subj → Bool → Nat → List Row → Except String (Nat × List Row)
  | [], _, acc, rows => .ok (acc, rows)
  | su :: rest, pf, acc, rows =>
    match export_subject_model proj file_types transfer_error df_present true
        derive_fails su pf with
    | .error e => .error e
    | .ok (c, rs) =>
      project_scope_go proj file_types transfer_error derive_fails df_present rest false
        (acc + c) (rows ++ rs)

/-- The three container scopes export_container accepts (line 647). -/
inductive Scope where
  | project : Scope
  | subject (su : Subj) : Scope
  | session (su : Subj) (se : Sess) : Scope

/-- export_container (container_export.py lines 580-671) over an origin
tree.  Project scope walks all subjects with the project_files dedup
flag; subject scope exports one subject with project_files=False (line
658) and the project-loop variable `subject` unbound; session scope, when
the remap DataFrame exists, derives the subject template for
`container.subject` (line 665) — a failing derivation raises NameError
through the line-626 handler since `subject` is unbound here too — and
exports exactly one session with both file flags at their defaults False.
When the DataFrame does not exist, `session_export_error` (assigned only
at line 665) is unbound at line 668 and NameError is raised.  Container
matching against the destination project and template loading are
collaborations with the external store and filesystem; they are taken as
succeeding here, and `file_types` stands for the allowlist the loaded
template configures. -/
def export_container_model (scope : Scope) (proj : Proj) (file_types : List String)
    (transfer_error : String → Bool) (df_present : Bool) (derive_fails : Subj → Bool) :
    Except String (Nat × List Row) :=
  match scope with
  | .project =>
    project_scope_go proj file_types transfer_error derive_fails df_present
      proj.subjects true 0 []
  | .subject su =>
    export_subject_model proj file_types transfer_error df_present false derive_fails su false
  | .session su se =>
    if df_present then
      match get_subject_template_msg false derive_fails su with
      | .error e => .error e
      | .ok m => export_session_inner proj su se file_types false false transfer_error m
    else
      .error "NameError"

/-- The origin-id stamp read back from a payload:
`payload['info']['export']['origin_id']` when that path holds a string. -/
def info_export_origin_id (md : PyDict) : Option String :=
  match dget md "info" with
  | .vDict i =>
    match dget i "export" with
    | .vDict e =>
      match dget e "origin_id" with
      | .vStr h => some h
      | _ => none
    | _ => none
  | _ => none

theorem dkeys_cons (a : String) (b : Val) (l : PyDict) : dkeys ((a, b) :: l) = a :: dkeys l := by
  simp [dkeys]

theorem dget_dset_self (d : PyDict) (k : String) (v : Val) : dget (dset d k v) k = v := by
  induction d with
  | nil => simp [dset, dget]
  | cons hd tl ih =>
    obtain ⟨k', v'⟩ := hd
    by_cases h : k' = k
    · simp [dset, dget, h]
    · simp [dset, dget, h, ih]

theorem dget_dset_ne (d : PyDict) (k k' : String) (v : Val) (h : k' ≠ k) :
    dget (dset d k' v) k = dget d k := by
  induction d with
  | nil => simp [dset, dget, h]
  | cons hd tl ih =>
    obtain ⟨k0, v0⟩ := hd
    by_cases h0 : k0 = k'
    · subst h0
      simp [dset, dget, h]
    · by_cases h1 : k0 = k
      · subst h1
        simp [dset, dget, h0]
      · simp [dset, dget, h0, h1, ih]

theorem dmem_iff_dkeys (d : PyDict) (k : String) : dmem d k = true ↔ k ∈ dkeys d := by
  induction d with
  | nil => simp [dmem, dkeys]
  | cons hd tl ih =>
    obtain ⟨k', v'⟩ := hd
    rw [dkeys_cons]
    simp only [dmem, Bool.or_eq_true, beq_iff_eq, ih, List.mem_cons]
    constructor
    · rintro (h | h)
      · exact Or.inl h.symm
      · exact Or.inr h
    · rintro (h | h)
      · exact Or.inl h.symm
      · exact Or.inr h

theorem dmem_dset_self (d : PyDict) (k : String) (v : Val) : dmem (dset d k v) k = true := by
  induction d with
  | nil => simp [dset, dmem]
  | cons hd tl ih =>
    obtain ⟨k', v'⟩ := hd
    by_cases h : k' = k
    · simp [dset, dmem, h]
    · have hf : (k' == k) = false := by simp [h]
      simp [dset, dmem, hf, ih]

theorem dset_of_not_mem (d : PyDict) (k : String) (v : Val) (h : dmem d k = false) :
    dset d k v = d ++ [(k, v)] := by
  induction d with
  | nil => simp [dset]
  | cons hd tl ih =>
    obtain ⟨k', v'⟩ := hd
    simp only [dmem, Bool.or_eq_false_iff] at h
    simp [dset, h.1, ih h.2]

theorem dkeys_dset (d : PyDict) (k : String) (v : Val) :
    dkeys (dset d k v) = if dmem d k then dkeys d else dkeys d ++ [k] := by
  induction d with
  | nil => simp [dset, dkeys, dmem]
  | cons hd tl ih =>
    obtain ⟨k', v'⟩ := hd
    by_cases h : k' = k
    · simp [dset, dkeys, dmem, h]
    · have hf : (k' == k) = false := by simp [h]
      have hd : dset ((k', v') :: tl) k v = (k', v') :: dset tl k v := by simp [dset, hf]
      rw [hd]
      simp only [dmem, hf, Bool.false_or]
      rw [dkeys_cons, dkeys_cons, ih]
      by_cases h2 : dmem tl k <;> simp [h2]

theorem mem_dkeys_dset (d : PyDict) (k a : String) (v : Val)
    (h : a ∈ dkeys (dset d k v)) : a ∈ dkeys d ∨ a = k := by
  rw [dkeys_dset] at h
  by_cases hm : dmem d k
  · simp [hm] at h
    exact Or.inl h
  · simp [hm] at h
    rcases h with h | h
    · exact Or.inl h
    · exact Or.inr h

theorem dkeys_dset_nodup (d : PyDict) (k : String) (v : Val) (h : (dkeys d).Nodup) :
    (dkeys (dset d k v)).Nodup := by
  rw [dkeys_dset]
  by_cases hm : dmem d k
  · simpa [hm] using h
  · have hk : k ∉ dkeys d := fun hc => hm ((dmem_iff_dkeys d k).mpr hc)
    simp [hm, List.nodup_append, h, hk]

theorem merge_into_cons (old : PyDict) (k' : String) (v' : Val) (tl : PyDict) :
    merge_into old ((k', v') :: tl) = merge_into (dset old k' v') tl := by
  simp [merge_into]

theorem merge_into_dget (old new : PyDict) (k : String) (h : (dkeys new).Nodup) :
    dget (merge_into old new) k = if dmem new k then dget new k else dget old k := by
  induction new generalizing old with
  | nil => simp [merge_into, dmem, dget]
  | cons hd tl ih =>
    obtain ⟨k', v'⟩ := hd
    rw [dkeys_cons, List.nodup_cons] at h
    have htl : (dkeys tl).Nodup := h.2
    rw [merge_into_cons, ih _ htl]
    by_cases hk : k' = k
    · subst hk
      have hnm : dmem tl k' = false := by
        rw [← Bool.not_eq_true, dmem_iff_dkeys]
        exact h.1
      simp [dmem, dget, hnm, dget_dset_self]
    · have hf : (k' == k) = false := by simp [hk]
      by_cases hm : dmem tl k
      · simp [dmem, dget, hf, hm]
      · simp [dmem, dget, hf, hm, dget_dset_ne _ _ _ _ hk]

theorem contains_iff_mem (l : List String) (a : String) : l.contains a = true ↔ a ∈ l := by
  simp

theorem copy_meta_fields_shape (origin : PyDict) (w : Option (List String))
    (items : List String) : ∀ md md', copy_meta_fields origin w items md = .ok md' →
    ∃ apps : PyDict, md' = md ++ apps ∧ ∀ kv ∈ apps, kv.1 ∈ w.getD [] := by
  induction items with
  | nil =>
    intro md md' h
    simp only [copy_meta_fields] at h
    cases h
    exact ⟨[], by simp, by simp⟩
  | cons item rest ih =>
    intro md md' h
    match w, h with
    | none, h => simp [copy_meta_fields] at h
    | some wl, h =>
      simp only [copy_meta_fields] at h
      by_cases hc : (wl.contains item && (dget origin item).truthy && !(dmem md item)) = true
      · rw [if_pos hc] at h
        have hc2 := hc
        simp only [Bool.and_eq_true, Bool.not_eq_true'] at hc2
        obtain ⟨⟨hwl0, -⟩, hnm⟩ := hc2
        have hwl : item ∈ wl := (contains_iff_mem wl item).mp hwl0
        rcases ih _ _ h with ⟨apps, happ, hkeys⟩
        refine ⟨(item, dget origin item) :: apps, ?_, ?_⟩
        · rw [happ, dset_of_not_mem _ _ _ hnm, List.append_assoc]
          rfl
        · intro kv hkv
          rcases List.mem_cons.mp hkv with hkv | hkv
          · subst hkv
            simpa using hwl
          · exact hkeys kv hkv
      · rw [if_neg hc] at h
        exact ih _ _ h

theorem copy_info_whitelist_nodup (oi : PyDict) (wl : List String) :
    (dkeys (copy_info_whitelist oi wl)).Nodup := by
  suffices h : ∀ acc : PyDict, (dkeys acc).Nodup →
      (dkeys (oi.foldl
        (fun acc kv => if wl.contains kv.1 then dset acc kv.1 kv.2 else acc) acc)).Nodup by
    exact h [] (by simp [dkeys])
  induction oi with
  | nil =>
    intro acc h
    simpa using h
  | cons hd tl ih =>
    intro acc h
    simp only [List.foldl_cons]
    by_cases hc : wl.contains hd.1
    · rw [if_pos hc]
      exact ih _ (dkeys_dset_nodup _ _ _ h)
    · rw [if_neg hc]
      exact ih _ h

theorem build_meta_dict1_eq (o : PyDict) (mwl iwl : List String) :
    build_meta_dict1 o mwl iwl = [("info", dget (build_meta_dict1 o mwl iwl) "info")] := by
  rw [build_meta_dict1]
  split
  · simp [dset, dget]
  · split <;> simp [dset, dget]

theorem stamp_ok_shape (o : PyDict) (ct : String) (mwl iwl : List String) (ids : String)
    (md o' : PyDict) (h : stamp_payload o ct mwl iwl ids = .ok (md, o')) :
    ∃ stamped rest : PyDict,
      md = ("info", .vDict stamped) :: rest ∧
      dget stamped "export" = .vDict [("origin_id", .vStr (hash_string ids))] ∧
      dmem stamped "export" = true ∧
      (∀ kv ∈ rest, kv.1 ∈ (META_WHITELIST_DICT ct).getD []) ∧
      (info_nodup o → (dkeys stamped).Nodup) ∧
      o' = (if mwl.contains "info" then dset o "info" (.vDict stamped) else o) := by
  simp only [stamp_payload] at h
  split at h
  case h_2 => cases h
  next d hd =>
    split at h
    · cases h
    next md3 hcopy =>
      cases h
      refine ⟨dset d "export" (.vDict [("origin_id", .vStr (hash_string ids))]), ?_⟩
      rcases copy_meta_fields_shape o (META_WHITELIST_DICT ct) mwl _ _ hcopy
        with ⟨apps, happ, hkeys⟩
      refine ⟨apps, ?_, dget_dset_self _ _ _, dmem_dset_self _ _ _, hkeys, ?_, ?_⟩
      · rw [happ]
        conv_lhs => rw [build_meta_dict1_eq o mwl iwl, hd]
        simp [dset]
      · intro hwf
        apply dkeys_dset_nodup
        rw [build_meta_dict1] at hd
        by_cases hci : mwl.contains "info" = true
        · rw [if_pos hci] at hd
          have hoi : dget o "info" = .vDict d := by
            simpa [dset, dget] using hd
          unfold info_nodup at hwf
          rw [hoi] at hwf
          exact hwf
        · rw [if_neg hci] at hd
          split at hd
          next oi hoi =>
            have he : copy_info_whitelist oi iwl = d := by
              simpa [dset, dget] using hd
            rw [← he]
            exact copy_info_whitelist_nodup oi iwl
          next =>
            have he : ([] : PyDict) = d := by
              simpa [dget] using hd
            rw [← he]
            simp [dkeys]
      · rfl

theorem create_ok_shape (o : PyDict) (ct : String) (cfg : Val) (md o' : PyDict)
    (h : create_metadata_dict o ct cfg = .ok (md, o')) :
    ∃ (ids : String) (mwl iwl : List String) (stamped rest : PyDict),
      dget o "id" = .vStr ids ∧
      parse_whitelists ct cfg = .ok (mwl, iwl) ∧
      md = ("info", .vDict stamped) :: rest ∧
      dget stamped "export" = .vDict [("origin_id", .vStr (hash_string ids))] ∧
      dmem stamped "export" = true ∧
      (∀ kv ∈ rest, kv.1 ∈ (META_WHITELIST_DICT ct).getD []) ∧
      (info_nodup o → (dkeys stamped).Nodup) ∧
      o' = (if mwl.contains "info" then dset o "info" (.vDict stamped) else o) := by
  simp only [create_metadata_dict] at h
  split at h
  · cases h
  cases hp : parse_whitelists ct cfg with
  | error e =>
    rw [hp] at h
    cases h
  | ok wls =>
    obtain ⟨mwl, iwl⟩ := wls
    rw [hp] at h
    cases hv : dget o "id" with
    | vStr ids =>
      rw [hv] at h
      rcases stamp_ok_shape o ct mwl iwl ids md o' h with
        ⟨stamped, rest, h1, h2, h3, h4, h5, h6⟩
      exact ⟨ids, mwl, iwl, stamped, rest, rfl, rfl, h1, h2, h3, h4, h5, h6⟩
    | vNone =>
      rw [hv] at h
      cases h
    | vInt n =>
      rw [hv] at h
      cases h
    | vStrList l =>
      rw [hv] at h
      cases h
    | vDict d =>
      rw [hv] at h
      cases h

theorem update_first_length (p : PyDict → Bool) (f : PyDict → PyDict) (l : List PyDict) :
    (update_first p f l).length = l.length := by
  induction l with
  | nil => rfl
  | cons d rest ih =>
    by_cases h : p d
    · simp [update_first, h]
    · simp [update_first, h, ih]

theorem countP_update_first (p : PyDict → Bool) (f : PyDict → PyDict) (l : List PyDict)
    (h : ∀ x, p x = true → p (f x) = true) :
    (update_first p f l).countP p = l.countP p := by
  induction l with
  | nil => rfl
  | cons d rest ih =>
    by_cases hd : p d
    · simp [update_first, hd, List.countP_cons, h d hd]
    · simp [update_first, hd, List.countP_cons, ih]

theorem foldl_cu_step_dget_ne (l : PyDict) (k : String) (hne : ∀ kv ∈ l, kv.1 ≠ k)
    (hki : k ≠ "info" ∨ ∀ kv ∈ l, kv.1 ≠ "info") :
    ∀ acc, dget (List.foldl cu_step acc l) k = dget acc k := by
  induction l with
  | nil =>
    intro acc
    rfl
  | cons hd tl ih =>
    intro acc
    rw [List.foldl_cons]
    have hne' : ∀ kv ∈ tl, kv.1 ≠ k := fun kv hkv => hne kv (List.mem_cons_of_mem _ hkv)
    have hki' : k ≠ "info" ∨ ∀ kv ∈ tl, kv.1 ≠ "info" := by
      rcases hki with h | h
      · exact Or.inl h
      · exact Or.inr (fun kv hkv => h kv (List.mem_cons_of_mem _ hkv))
    rw [ih hne' hki']
    by_cases hi : hd.1 = "info"
    · have hik : "info" ≠ k := by
        rcases hki with h | h
        · exact fun hc => h hc.symm
        · exact hi ▸ hne hd (List.mem_cons_self _ _)
      have hstep : cu_step acc hd = (match dget acc "info", hd.2 with
          | Val.vDict oldi, Val.vDict newi => dset acc "info" (.vDict (merge_into oldi newi))
          | _, _ => dset acc "info" hd.2) := by
        simp [cu_step, hi]
      rw [hstep]
      split <;> rw [dget_dset_ne _ _ _ _ hik]
    · have hstep : cu_step acc hd = dset acc hd.1 hd.2 := by
        simp [cu_step, hi]
      rw [hstep]
      exact dget_dset_ne _ _ _ _ (hne hd (List.mem_cons_self _ _))

theorem container_update_dget_ne (c md : PyDict) (k : String)
    (h : ∀ kv ∈ md, kv.1 ≠ k) (hki : k ≠ "info" ∨ ∀ kv ∈ md, kv.1 ≠ "info") :
    dget (container_update c md) k = dget c k :=
  foldl_cu_step_dget_ne md k h hki c

theorem container_update_info (c mi rest ci : PyDict)
    (hrest : ∀ kv ∈ rest, kv.1 ≠ "info") (hc : dget c "info" = .vDict ci) :
    dget (container_update c (("info", .vDict mi) :: rest)) "info" =
      .vDict (merge_into ci mi) := by
  unfold container_update
  rw [List.foldl_cons]
  have hstep : cu_step c ("info", .vDict mi) = dset c "info" (.vDict (merge_into ci mi)) := by
    simp [cu_step, hc]
  rw [hstep, foldl_cu_step_dget_ne rest "info" hrest (Or.inr hrest), dget_dset_self]

theorem session_wl_keys (k : String)
    (h : k ∈ (META_WHITELIST_DICT "session").getD []) : k ≠ "label" ∧ k ≠ "info" := by
  have he : (META_WHITELIST_DICT "session").getD [] =
      ["age", "operator", "timestamp", "timezone", "uid", "weight"] := rfl
  rw [he] at h
  fin_cases h <;> exact ⟨by decide, by decide⟩

theorem query_preserved (origin : PyDict) (cfg : Val) (md o' t : PyDict)
    (hok : create_metadata_dict origin "session" cfg = .ok (md, o'))
    (hwf : info_nodup origin)
    (ht : reconcile_query origin cfg t = true) :
    reconcile_query origin cfg (container_update t md) = true := by
  rcases create_ok_shape origin "session" cfg md o' hok with
    ⟨ids, mwl, iwl, stamped, rest, hids, hp, hmd, hexp, hmem, hkeys, hnd, ho'⟩
  have hnds : (dkeys stamped).Nodup := hnd hwf
  unfold reconcile_query session_matches at ht ⊢
  rw [Bool.and_eq_true] at ht
  obtain ⟨hlab, hinfo⟩ := ht
  have hci : ∃ ci, dget t "info" = .vDict ci := by
    cases hv : dget t "info" with
    | vDict ci => exact ⟨ci, rfl⟩
    | vNone =>
      rw [hv] at hinfo
      simp [info_origin_id_is] at hinfo
    | vStr s =>
      rw [hv] at hinfo
      simp [info_origin_id_is] at hinfo
    | vInt n =>
      rw [hv] at hinfo
      simp [info_origin_id_is] at hinfo
    | vStrList l =>
      rw [hv] at hinfo
      simp [info_origin_id_is] at hinfo
  obtain ⟨ci, hci⟩ := hci
  have hrest2 : ∀ kv ∈ rest, kv.1 ≠ "info" :=
    fun kv hkv => (session_wl_keys kv.1 (hkeys kv hkv)).2
  have hlabel : dget (container_update t md) "label" = dget t "label" := by
    rw [hmd]
    apply container_update_dget_ne
    · intro kv hkv
      rcases List.mem_cons.mp hkv with rfl | hkv
      · exact (show ("info" : String) ≠ "label" by decide)
      · exact (session_wl_keys kv.1 (hkeys kv hkv)).1
    · exact Or.inl (by decide)
  have hinfo2 : dget (container_update t md) "info" = .vDict (merge_into ci stamped) := by
    rw [hmd]
    exact container_update_info t stamped rest ci hrest2 hci
  have hattr : attr_str origin "id" = ids := by
    unfold attr_str
    rw [hids]
  rw [Bool.and_eq_true]
  constructor
  · rw [hlabel]
    exact hlab
  · rw [hinfo2, hattr]
    have hge : dget (merge_into ci stamped) "export" =
        Val.vDict [("origin_id", Val.vStr (hash_string ids))] := by
      rw [merge_into_dget ci stamped "export" hnds, if_pos hmem, hexp]
    simp [info_origin_id_is, hge, dget]

theorem reconcile_step (origin : PyDict) (cfg : Val) (md o' : PyDict) (ss : List PyDict)
    (hok : create_metadata_dict origin "session" cfg = .ok (md, o'))
    (hone : ss.countP (reconcile_query origin cfg) = 1) :
    find_or_create_subject_session origin ss cfg =
      .ok (update_first (reconcile_query origin cfg) (fun t => container_update t md) ss) := by
  have hfind : ∃ s, ss.find? (reconcile_query origin cfg) = some s := by
    cases hf : ss.find? (reconcile_query origin cfg) with
    | some s => exact ⟨s, rfl⟩
    | none =>
      have hall : ∀ x ∈ ss, ¬(reconcile_query origin cfg x = true) :=
        fun x hx => by simpa using List.find?_eq_none.mp hf x hx
      have hc0 : ss.countP (reconcile_query origin cfg) = 0 := by
        rw [List.countP_eq_zero]
        exact hall
      rw [hc0] at hone
      cases hone
  obtain ⟨s, hs⟩ := hfind
  simp only [find_or_create_subject_session, hok, hs]

theorem runStar_preserves (origin : PyDict) (cfg : Val) (md o' : PyDict)
    (hok : create_metadata_dict origin "session" cfg = .ok (md, o'))
    (hwf : info_nodup origin) :
    ∀ n (ss : List PyDict), ss.countP (reconcile_query origin cfg) = 1 →
    ∃ ss', runStar origin cfg n ss = .ok ss' ∧
      ss'.countP (reconcile_query origin cfg) = 1 ∧ ss'.length = ss.length := by
  intro n
  induction n with
  | zero =>
    intro ss h
    exact ⟨ss, rfl, h, rfl⟩
  | succ n ih =>
    intro ss h
    have hstep := reconcile_step origin cfg md o' ss hok h
    have hcount : (update_first (reconcile_query origin cfg)
        (fun t => container_update t md) ss).countP (reconcile_query origin cfg) = 1 := by
      rw [countP_update_first]
      · exact h
      · intro x hx
        exact query_preserved origin cfg md o' x hok hwf hx
    have hlen := update_first_length (reconcile_query origin cfg)
      (fun t => container_update t md) ss
    rcases ih _ hcount with ⟨ss', hrun, hc, hl⟩
    refine ⟨ss', ?_, hc, by rw [hl, hlen]⟩
    rw [runStar, hstep]
    exact hrun

theorem initialize_closed_form (files : List FFile) (fdict : List (String × String))
    (ftl : List String) :
    initialize_container_file_export files fdict ftl =
      (files.filter (fun f => ftl.contains f.ftype)).map
        (fun f => { origin_filename := f.name,
                    export_filename :=
                      ((fdict.find? (fun p => p.1 == f.name)).map Prod.snd).getD f.name }) := by
  induction files with
  | nil => rfl
  | cons f rest ih =>
    by_cases h : f.ftype ∈ ftl
    · have hc : ftl.contains f.ftype = true := (contains_iff_mem _ _).mpr h
      simp [initialize_container_file_export, List.filter_cons, hc, h, ih]
    · have hc : ftl.contains f.ftype = false := by
        rw [← Bool.not_eq_true]
        exact fun hb => h ((contains_iff_mem _ _).mp hb)
      simp [initialize_container_file_export, List.filter_cons, hc, h, ih]

theorem error_rows_ne_nil (msg : String) (ft : List String) (files : List FFile)
    (h : allowed_files ft files ≠ []) : error_rows msg ft files ≠ [] := by
  unfold error_rows
  intro hc
  exact h (List.map_eq_nil_iff.mp hc)

theorem session_calls_go_mem (su : Subj) (l : List Sess) (pf sf : Bool) (c : SessionCall)
    (h : c ∈ session_calls_go su l pf sf) : c.1 = su ∧ c.2.1 ∈ l := by
  induction l generalizing pf sf with
  | nil => cases h
  | cons se rest ih =>
    rw [session_calls_go] at h
    rcases List.mem_cons.mp h with rfl | h
    · exact ⟨rfl, List.mem_cons_self _ _⟩
    · rcases ih false false h with ⟨h1, h2⟩
      exact ⟨h1, List.mem_cons_of_mem _ h2⟩

theorem project_calls_go_mem (l : List Subj) (pf : Bool) (c : SessionCall)
    (h : c ∈ project_calls_go l pf) : ∃ su ∈ l, c.1 = su ∧ c.2.1 ∈ su.sessions := by
  induction l generalizing pf with
  | nil => cases h
  | cons su rest ih =>
    rw [project_calls_go] at h
    rcases List.mem_append.mp h with h | h
    · rcases session_calls_go_mem su su.sessions pf true c h with ⟨h1, h2⟩
      exact ⟨su, List.mem_cons_self _ _, h1, h2⟩
    · rcases ih false h with ⟨su', hsu, h1, h2⟩
      exact ⟨su', List.mem_cons_of_mem _ hsu, h1, h2⟩

theorem session_calls_go_false (su : Subj) (l : List Sess) :
    session_calls_go su l false false = l.map (fun se => (su, se, false, false)) := by
  induction l with
  | nil => rfl
  | cons se rest ih => rw [session_calls_go, ih, List.map_cons]

theorem enumFrom_calls_all_false (su : Subj) (pfb : Bool) (l : List Sess) :
    ∀ n : Nat, (List.enumFrom (n + 1) l).map
        (fun q => (su, q.2, pfb && q.1 == 0, q.1 == 0)) =
      l.map (fun se => (su, se, false, false)) := by
  induction l with
  | nil =>
    intro n
    rfl
  | cons se rest ih =>
    intro n
    rw [List.enumFrom_cons, List.map_cons, List.map_cons]
    have h0 : ((n + 1 : Nat) == 0) = false := by simp
    rw [h0]
    simp only [Bool.and_false]
    rw [ih (n + 1)]

theorem subject_session_calls_closed (pf : Bool) (su : Subj) :
    subject_session_calls pf su =
      su.sessions.enum.map (fun q => (su, q.2, pf && q.1 == 0, q.1 == 0)) := by
  unfold subject_session_calls
  cases hs : su.sessions with
  | nil => rfl
  | cons se rest =>
    rw [session_calls_go, session_calls_go_false]
    rw [List.enum_cons, List.map_cons]
    simp only [Nat.zero_eq, beq_self_eq_true, Bool.and_true]
    rw [show (1 : Nat) = 0 + 1 from rfl, enumFrom_calls_all_false]

theorem project_calls_go_false (l : List Subj) :
    project_calls_go l false =
      (l.map (fun su =>
        su.sessions.enum.map (fun q => (su, q.2, false, q.1 == 0)))).flatten := by
  induction l with
  | nil => rfl
  | cons su rest ih =>
    rw [project_calls_go, ih, List.map_cons, List.flatten_cons,
      subject_session_calls_closed]
    simp

theorem project_calls_go_ne_nil (l : List Subj) (pf : Bool)
    (h : ∃ su ∈ l, su.sessions ≠ []) : project_calls_go l pf ≠ [] := by
  induction l generalizing pf with
  | nil =>
    rcases h with ⟨su, hsu, -⟩
    cases hsu
  | cons a rest ih =>
    rw [project_calls_go]
    rcases h with ⟨su, hsu, hs⟩
    rcases List.mem_cons.mp hsu with rfl | hsu
    · have hne : subject_session_calls pf su ≠ [] := by
        unfold subject_session_calls
        cases hsess : su.sessions with
        | nil => exact absurd hsess hs
        | cons x xs =>
          rw [session_calls_go]
          exact List.cons_ne_nil _ _
      intro hc
      rcases List.append_eq_nil.mp hc with ⟨h1, -⟩
      exact hne h1
    · intro hc
      rcases List.append_eq_nil.mp hc with ⟨-, h2⟩
      exact ih false ⟨su, hsu, hs⟩ h2

theorem enumFrom_subj_all_false (rest : List Subj) : ∀ n : Nat,
    (List.enumFrom (n + 1) rest).map (fun p =>
        p.2.sessions.enum.map (fun q => (p.2, q.2, p.1 == 0 && q.1 == 0, q.1 == 0))) =
      rest.map (fun su =>
        su.sessions.enum.map (fun q => (su, q.2, false, q.1 == 0))) := by
  induction rest with
  | nil =>
    intro n
    rfl
  | cons su l ih =>
    intro n
    rw [List.enumFrom_cons, List.map_cons, List.map_cons]
    have h0 : ((n + 1 : Nat) == 0) = false := by simp
    rw [h0]
    simp only [Bool.false_and]
    rw [ih (n + 1)]

theorem project_scope_calls_closed (subjects : List Subj) :
    project_scope_calls subjects =
      (subjects.enum.map (fun p =>
        p.2.sessions.enum.map (fun q => (p.2, q.2, p.1 == 0 && q.1 == 0, q.1 == 0)))).flatten := by
  unfold project_scope_calls
  cases subjects with
  | nil => rfl
  | cons su rest =>
    rw [project_calls_go, project_calls_go_false, subject_session_calls_closed]
    rw [List.enum_cons, List.map_cons, List.flatten_cons]
    simp only [show ((0 : Nat) == 0) = true from rfl, Bool.true_and]
    rw [show (1 : Nat) = 0 + 1 from rfl, enumFrom_subj_all_false]

theorem countP_pf_session_calls (su : Subj) (l : List Sess) :
    ∀ sf : Bool, (session_calls_go su l false sf).countP (fun c => c.2.2.1) = 0 := by
  induction l with
  | nil =>
    intro sf
    rfl
  | cons se rest ih =>
    intro sf
    rw [session_calls_go]
    simp only [List.countP_cons]
    rw [ih false]
    simp

theorem countP_pf_project_calls (l : List Subj) :
    (project_calls_go l false).countP (fun c => c.2.2.1) = 0 := by
  induction l with
  | nil => rfl
  | cons su rest ih =>
    rw [project_calls_go, List.countP_append, ih]
    unfold subject_session_calls
    rw [countP_pf_session_calls]

/-- C3: Whitelist closure.  For every container type T in (subject,
session, acquisition), every origin container and every container_config
(malformed or absent ones included), whenever create_metadata_dict
returns a payload, the payload's top-level keys all lie in
META_WHITELIST_DICT T together with the key "info". -/
theorem create_metadata_dict_whitelist_closure (origin : PyDict) (ct : String) (cfg : Val)
    (md o' : PyDict)
    (hct : ct = "subject" ∨ ct = "session" ∨ ct = "acquisition")
    (h : create_metadata_dict origin ct cfg = .ok (md, o')) :
    (dkeys md).all
      (fun k => k == "info" || ((META_WHITELIST_DICT ct).getD []).contains k) = true := by
  rcases create_ok_shape origin ct cfg md o' h with
    ⟨ids, mwl, iwl, stamped, rest, -, -, hmd, -, -, hkeys, -, -⟩
  rw [hmd, List.all_eq_true]
  intro k hk
  rw [dkeys_cons] at hk
  rcases List.mem_cons.mp hk with rfl | hk
  · simp
  · unfold dkeys at hk
    rcases List.mem_map.mp hk with ⟨kv, hkv, rfl⟩
    have hin := hkeys kv hkv
    simp only [Bool.or_eq_true, beq_iff_eq]
    exact Or.inr ((contains_iff_mem _ _).mpr hin)

/-- C3 witness: a session payload built from an origin with an age field
under the metadata whitelist "all" has keys "info" and "age" only, both
allowed. -/
theorem create_metadata_dict_whitelist_closure_witness :
    (dkeys [("info", Val.vDict [("export", Val.vDict [("origin_id", Val.vStr (hash_string "s1"))])]),
            ("age", Val.vStr "33")]).all
      (fun k => k == "info" || ((META_WHITELIST_DICT "session").getD []).contains k) = true :=
  create_metadata_dict_whitelist_closure
    [("id", .vStr "s1"), ("info", .vDict []), ("age", .vStr "33")] "session"
    (.vDict [("whitelist", .vDict [("metadata", .vStr "all")])])
    [("info", Val.vDict [("export", Val.vDict [("origin_id", Val.vStr (hash_string "s1"))])]),
     ("age", Val.vStr "33")]
    [("id", .vStr "s1"), ("info", .vDict []), ("age", .vStr "33")]
    (Or.inr (Or.inl rfl)) rfl

/-- C4 counterexample: the claim quantifies over every origin container
with an id and every whitelist configuration including info whitelist
All; but when the origin snapshot carries no info dict and the info
whitelist is "all", line 158 sets `meta_dict['info']` to None and the
stamp assignment at line 167 raises TypeError, so no payload carrying the
stamp is returned at this input. -/
theorem create_metadata_dict_info_all_crash :
    create_metadata_dict [("id", .vStr "a")] "subject"
      (.vDict [("whitelist", .vDict [("info", .vStr "all")])]) = .error "TypeError" := rfl

/-- C4 amended: whenever create_metadata_dict returns a payload (in
particular whenever the origin's info is a dict or the info whitelist is
an explicit list), the payload satisfies
`info.export.origin_id = hash_string(origin id)`; the stamp is written
after the info copy, so no origin info entry, a key named "export"
included, survives over it. -/
theorem create_metadata_dict_origin_id_stamp (origin : PyDict) (ct : String) (cfg : Val)
    (md o' : PyDict) (ids : String)
    (hid : dget origin "id" = .vStr ids)
    (h : create_metadata_dict origin ct cfg = .ok (md, o')) :
    info_export_origin_id md = some (hash_string ids) := by
  rcases create_ok_shape origin ct cfg md o' h with
    ⟨ids', mwl, iwl, stamped, rest, hids, -, hmd, hexp, -, -, -, -⟩
  have hi : ids' = ids := by
    rw [hid] at hids
    injection hids with hh
    exact hh.symm
  subst hi
  rw [hmd]
  unfold info_export_origin_id
  simp [dget, hexp]

/-- C4 witness: an origin whose info carries a forged
`export.origin_id` entry, exported with the explicit info whitelist
["export"], still ends up stamped with the hash of its own id. -/
theorem create_metadata_dict_origin_id_stamp_witness :
    info_export_origin_id
      [("info", Val.vDict [("export", Val.vDict [("origin_id", Val.vStr (hash_string "b"))])])] =
      some (hash_string "b") :=
  create_metadata_dict_origin_id_stamp
    [("id", .vStr "b"), ("info", .vDict [("export", .vDict [("origin_id", .vStr "fake")])])]
    "subject" (.vDict [("whitelist", .vDict [("info", .vStrList ["export"])])])
    [("info", Val.vDict [("export", Val.vDict [("origin_id", Val.vStr (hash_string "b"))])])]
    [("id", .vStr "b"), ("info", .vDict [("export", .vDict [("origin_id", .vStr "fake")])])]
    "b" rfl rfl

/-- C5 counterexample: with info whitelist "all",
`meta_dict['info'] = origin_container.get('info')` aliases the origin's
info object and the stamp of line 167 mutates it, so after the call the
origin snapshot differs from what was passed in: its info map has gained
the export stamp. -/
theorem create_metadata_dict_mutates_origin :
    (create_metadata_dict [("id", .vStr "a"), ("info", .vDict [])] "subject"
      (.vDict [("whitelist", .vDict [("info", .vStr "all")])])).map Prod.snd ≠
    .ok [("id", .vStr "a"), ("info", .vDict [])] := by
  have he : (create_metadata_dict [("id", .vStr "a"), ("info", .vDict [])] "subject"
      (.vDict [("whitelist", .vDict [("info", .vStr "all")])])).map Prod.snd =
      .ok [("id", .vStr "a"),
           ("info", .vDict [("export", .vDict [("origin_id", .vStr (hash_string "a"))])])] := rfl
  rw [he]
  intro hc
  simp at hc

/-- C5 amended: create_metadata_dict leaves the origin snapshot unchanged
whenever whole-info copy is not selected: if "info" is not in the
effective metadata whitelist (that is, the info whitelist is not the
string "all" and the metadata whitelist does not list "info"), the origin
after the call equals the origin before it. -/
theorem create_metadata_dict_pure_unless_info_all (origin : PyDict) (ct : String) (cfg : Val)
    (mwl iwl : List String) (md o' : PyDict)
    (hp : parse_whitelists ct cfg = .ok (mwl, iwl))
    (hni : mwl.contains "info" = false)
    (h : create_metadata_dict origin ct cfg = .ok (md, o')) :
    o' = origin := by
  rcases create_ok_shape origin ct cfg md o' h with
    ⟨ids, mwl', iwl', stamped, rest, -, hp', -, -, -, -, -, ho'⟩
  rw [hp] at hp'
  injection hp' with hp'
  have hm : mwl = mwl' := congrArg Prod.fst hp'
  rw [← hm, hni] at ho'
  simpa using ho'

/-- C5 witness: with no whitelist configuration at all, an origin with a
private info entry comes back from create_metadata_dict unchanged. -/
theorem create_metadata_dict_pure_unless_info_all_witness :
    (create_metadata_dict [("id", .vStr "a"), ("info", .vDict [("secret", .vStr "x")])]
      "session" .vNone).map Prod.snd =
    .ok [("id", .vStr "a"), ("info", .vDict [("secret", .vStr "x")])] := by
  have h := create_metadata_dict_pure_unless_info_all
    [("id", .vStr "a"), ("info", .vDict [("secret", .vStr "x")])] "session" .vNone
    [] []
    [("info", .vDict [("export", .vDict [("origin_id", .vStr (hash_string "a"))])])]
    [("id", .vStr "a"), ("info", .vDict [("secret", .vStr "x")])]
    rfl rfl rfl
  rw [show create_metadata_dict [("id", .vStr "a"), ("info", .vDict [("secret", .vStr "x")])]
      "session" .vNone =
      .ok ([("info", .vDict [("export", .vDict [("origin_id", .vStr (hash_string "a"))])])],
           [("id", .vStr "a"), ("info", .vDict [("secret", .vStr "x")])]) from rfl]
  rw [Except.map, h]

/-- C1: Idempotence of session reconciliation.  If exactly one session of
the destination subject matches the reconciliation query (effective label
plus `info.export.origin_id = hash_string(origin_session.id)`) — the
state a previous export left behind — then every further run of
find_or_create_subject_session finds that session and updates it rather
than creating a second one: after any number of re-runs exactly one
matching destination session exists and the session list never grows. -/
theorem find_or_create_subject_session_idempotent (origin : PyDict) (cfg : Val)
    (sessions : List PyDict) (md o' : PyDict)
    (hok : create_metadata_dict origin "session" cfg = .ok (md, o'))
    (hwf : info_nodup origin)
    (hone : sessions.countP (reconcile_query origin cfg) = 1) :
    ∀ n : Nat,
      countMatchesE (reconcile_query origin cfg) (runStar origin cfg n sessions) = some 1 ∧
      lengthE (runStar origin cfg n sessions) = some sessions.length := by
  intro n
  rcases runStar_preserves origin cfg md o' hok hwf n sessions hone with ⟨ss', hrun, hc, hl⟩
  rw [hrun]
  exact ⟨by simp [countMatchesE, hc], by simp [lengthE, hl]⟩

/-- C1 witness: one destination session already carrying the label of the
origin session and the hash of its id; two further runs still leave
exactly one matching session and a session list of length one. -/
theorem find_or_create_subject_session_idempotent_witness :
    countMatchesE
      (reconcile_query [("id", .vStr "s1"), ("label", .vStr "ses-01"), ("info", .vDict [])] .vNone)
      (runStar [("id", .vStr "s1"), ("label", .vStr "ses-01"), ("info", .vDict [])] .vNone 2
        [[("label", .vStr "ses-01"),
          ("info", .vDict [("export", .vDict [("origin_id", .vStr (hash_string "s1"))])])]]) =
      some 1 ∧
    lengthE
      (runStar [("id", .vStr "s1"), ("label", .vStr "ses-01"), ("info", .vDict [])] .vNone 2
        [[("label", .vStr "ses-01"),
          ("info", .vDict [("export", .vDict [("origin_id", .vStr (hash_string "s1"))])])]]) =
      some 1 :=
  find_or_create_subject_session_idempotent
    [("id", .vStr "s1"), ("label", .vStr "ses-01"), ("info", .vDict [])] .vNone
    [[("label", .vStr "ses-01"),
      ("info", .vDict [("export", .vDict [("origin_id", .vStr (hash_string "s1"))])])]]
    [("info", .vDict [("export", .vDict [("origin_id", .vStr (hash_string "s1"))])])]
    [("id", .vStr "s1"), ("label", .vStr "ses-01"), ("info", .vDict [])]
    rfl List.nodup_nil rfl 2

/-- C6: find_or_create_session_acquisition ignores the config label.
The docstring (lines 257-258) and the spec say the label from
acquisition_config is used when provided, but the query of lines 275-278
and the creation call of line 286 both use `origin_acquisition.label`:
with config label "anon" and origin label "orig", the acquisition created
in an empty destination session carries label "orig". -/
theorem find_or_create_session_acquisition_ignores_config_label :
    (find_or_create_session_acquisition
      [("id", .vStr "a1"), ("label", .vStr "orig")] []
      (.vDict [("label", .vStr "anon")])).map (fun l => l.map (fun d => dget d "label")) =
    .ok [.vStr "orig"] := rfl

/-- C7: initialize_container_file_export emits exactly one job per origin
file whose type is in the allowlist — the job list is the image of the
type-filtered file list — and the destination filename is the remap entry
for the origin name when one exists, else the origin name itself (the
defaulting lives in the FileExporter constructor; see FileExporterJob). -/
theorem initialize_container_file_export_jobs (origin_files : List FFile)
    (filename_dict : List (String × String)) (filetype_list : List String) :
    initialize_container_file_export origin_files filename_dict filetype_list =
      (origin_files.filter (fun f => filetype_list.contains f.ftype)).map
        (fun f => { origin_filename := f.name,
                    export_filename :=
                      ((filename_dict.find? (fun p => p.1 == f.name)).map Prod.snd).getD f.name }) ∧
    (initialize_container_file_export origin_files filename_dict filetype_list).length =
      origin_files.countP (fun f => filetype_list.contains f.ftype) := by
  refine ⟨initialize_closed_form origin_files filename_dict filetype_list, ?_⟩
  rw [initialize_closed_form, List.length_map, List.countP_eq_length_filter]

/-- C8: scope-file dedup of the project scope.  The session calls the
driver makes are exactly, for the j-th session of the i-th subject, a
call with project_files = (i = 0 and j = 0) and subject_files = (j = 0);
and when the first subject has at least one session, exactly one call in
the whole scope carries project_files=True. -/
theorem project_scope_flag_dedup (subjects : List Subj) :
    project_scope_calls subjects =
      (subjects.enum.map (fun p =>
        p.2.sessions.enum.map (fun q => (p.2, q.2, p.1 == 0 && q.1 == 0, q.1 == 0)))).flatten ∧
    (∀ su0 rest, subjects = su0 :: rest → su0.sessions ≠ [] →
      (project_scope_calls subjects).countP (fun c => c.2.2.1) = 1) := by
  refine ⟨project_scope_calls_closed subjects, ?_⟩
  intro su0 rest hsubj hs
  subst hsubj
  rcases List.exists_cons_of_ne_nil hs with ⟨se, ss, hsess⟩
  unfold project_scope_calls project_calls_go
  rw [List.countP_append, countP_pf_project_calls]
  unfold subject_session_calls
  rw [hsess, session_calls_go]
  simp only [List.countP_cons]
  rw [countP_pf_session_calls]
  simp

/-- C8 witness: two subjects with two and one sessions; exactly one of
the three calls carries project_files=True. -/
theorem project_scope_flag_dedup_witness :
    (project_scope_calls
      [⟨"A", [], [⟨"a1", [], []⟩, ⟨"a2", [], []⟩]⟩, ⟨"B", [], [⟨"b1", [], []⟩]⟩]).countP
      (fun c => c.2.2.1) = 1 :=
  (project_scope_flag_dedup
      [⟨"A", [], [⟨"a1", [], []⟩, ⟨"a2", [], []⟩]⟩, ⟨"B", [], [⟨"b1", [], []⟩]⟩]).2
    ⟨"A", [], [⟨"a1", [], []⟩, ⟨"a2", [], []⟩]⟩ [⟨"B", [], [⟨"b1", [], []⟩]⟩] rfl
    (List.cons_ne_nil _ _)

theorem export_subject_model_no_df (proj : Proj) (ft : List String)
    (oracle : String → Bool) (sb : Bool) (dfails : Subj → Bool) (su : Subj) (pf : Bool)
    (se : Sess) (ss : List Sess) (hs : su.sessions = se :: ss) :
    export_subject_model proj ft oracle false sb dfails su pf = .error "NameError" := by
  simp only [export_subject_model]
  unfold subject_session_calls
  rw [hs]
  rfl

theorem export_subject_model_no_df_nil (proj : Proj) (ft : List String)
    (oracle : String → Bool) (sb : Bool) (dfails : Subj → Bool) (su : Subj) (pf : Bool)
    (hs : su.sessions = []) :
    export_subject_model proj ft oracle false sb dfails su pf = .ok (0, []) := by
  simp only [export_subject_model]
  unfold subject_session_calls
  rw [hs]
  rfl

theorem project_scope_go_no_df (proj : Proj) (ft : List String) (oracle : String → Bool)
    (dfails : Subj → Bool) :
    ∀ (subjects : List Subj) (pf : Bool) (acc : Nat) (rows : List Row),
      (∃ su ∈ subjects, su.sessions ≠ []) →
      project_scope_go proj ft oracle dfails false subjects pf acc rows =
        .error "NameError" := by
  intro subjects
  induction subjects with
  | nil =>
    intro pf acc rows h
    rcases h with ⟨su, hsu, -⟩
    cases hsu
  | cons a rest ih =>
    intro pf acc rows h
    by_cases ha : a.sessions = []
    · have hok := export_subject_model_no_df_nil proj ft oracle true dfails a pf ha
      simp only [project_scope_go, hok]
      apply ih
      rcases h with ⟨su, hsu, hsess⟩
      rcases List.mem_cons.mp hsu with rfl | hsu
      · exact absurd ha hsess
      · exact ⟨su, hsu, hsess⟩
    · rcases List.exists_cons_of_ne_nil ha with ⟨se, ss, hs⟩
      have herr := export_subject_model_no_df proj ft oracle true dfails a pf se ss hs
      simp only [project_scope_go, herr]

/-- C9: with no subject-code remap DataFrame (subject_csv_path = None),
the locals subj_error_msg (line 635) and session_export_error (line 665)
are assigned only inside the `isinstance(df, pd.DataFrame)` branches, so
export_container raises NameError (UnboundLocalError) before exporting
any file — unconditionally under session scope, and under subject or
project scope as soon as a subject with at least one session is
reached. -/
theorem missing_subject_csv_raises_name_error (proj : Proj) (ft : List String)
    (oracle : String → Bool) (dfails : Subj → Bool) (suX : Subj) (seX : Sess) (su : Subj)
    (hsu : su.sessions ≠ [])
    (hproj : ∃ s ∈ proj.subjects, s.sessions ≠ []) :
    export_container_model (.session suX seX) proj ft oracle false dfails = .error "NameError" ∧
    export_container_model (.subject su) proj ft oracle false dfails = .error "NameError" ∧
    export_container_model .project proj ft oracle false dfails = .error "NameError" := by
  refine ⟨by simp [export_container_model], ?_, ?_⟩
  · rcases List.exists_cons_of_ne_nil hsu with ⟨se, ss, hs⟩
    simp only [export_container_model]
    exact export_subject_model_no_df proj ft oracle false dfails su false se ss hs
  · simp only [export_container_model]
    exact project_scope_go_no_df proj ft oracle dfails proj.subjects true 0 [] hproj

/-- C9 witness: subject scope over a subject with one session and no
remap DataFrame raises NameError. -/
theorem missing_subject_csv_raises_name_error_witness :
    export_container_model (.subject ⟨"S", [], [⟨"s1", [], []⟩]⟩)
      ⟨"p", [], [⟨"S", [], [⟨"s1", [], []⟩]⟩]⟩ ["dicom"] (fun _ => false) false
      (fun _ => false) = .error "NameError" :=
  (missing_subject_csv_raises_name_error ⟨"p", [], [⟨"S", [], [⟨"s1", [], []⟩]⟩]⟩ ["dicom"]
    (fun _ => false) (fun _ => false) ⟨"S", [], []⟩ ⟨"s1", [], []⟩
    ⟨"S", [], [⟨"s1", [], []⟩]⟩ (List.cons_ne_nil _ _)
    ⟨⟨"S", [], [⟨"s1", [], []⟩]⟩, List.mem_cons_self _ _, List.cons_ne_nil _ _⟩).2.1

/-- C10: when the origin session, its subject and project (when their
flags are set) and all of its acquisitions carry no file of an allowed
type, export_session returns None rather than an empty report, and the
caller `_export_session`, which evaluates `session_df['state']` at line
609, fails with TypeError on that None. -/
theorem export_session_none_on_no_allowed_files (proj : Proj) (su : Subj) (se : Sess)
    (ft : List String) (pf sf : Bool) (oracle : String → Bool)
    (h1 : pf = true → allowed_files ft proj.files = [])
    (h2 : sf = true → allowed_files ft su.files = [])
    (h3 : allowed_files ft se.files = [])
    (h4 : se.acquisitions.all (fun a => (allowed_files ft a.files).isEmpty) = true) :
    export_session_model proj su se ft pf sf oracle = none ∧
    export_session_inner proj su se ft pf sf oracle none = .error "TypeError" := by
  have hinit : ∀ files : List FFile, allowed_files ft files = [] →
      initialize_container_file_export files [] ft = [] := by
    intro files hf
    rw [initialize_closed_form]
    rw [show (files.filter fun f => ft.contains f.ftype) = allowed_files ft files from rfl, hf]
    rfl
  have hjobs : collect_session_jobs proj su se ft pf sf = [] := by
    unfold collect_session_jobs
    have hfold : se.acquisitions.foldl
        (fun acc a => acc ++ initialize_container_file_export a.files [] ft) [] = [] := by
      have hgen : ∀ (l : List Acq), (∀ a ∈ l, allowed_files ft a.files = []) →
          ∀ acc : List FileExporterJob, acc = [] →
          l.foldl (fun acc a => acc ++ initialize_container_file_export a.files [] ft) acc = [] := by
        intro l
        induction l with
        | nil =>
          intro _ acc hacc
          simpa using hacc
        | cons a rest ih =>
          intro hall acc hacc
          rw [List.foldl_cons]
          refine ih (fun x hx => hall x (List.mem_cons_of_mem _ hx)) _ ?_
          rw [hacc, hinit a.files (hall a (List.mem_cons_self _ _))]
          rfl
      refine hgen se.acquisitions ?_ [] rfl
      intro a ha
      have := (List.all_eq_true.mp h4) a ha
      exact List.isEmpty_iff.mp this
    rw [hfold, hinit se.files h3]
    cases pf with
    | true => rw [if_pos rfl, hinit proj.files (h1 rfl)]
              cases sf with
              | true => rw [if_pos rfl, hinit su.files (h2 rfl)]
                        rfl
              | false => simp
    | false => cases sf with
               | true => rw [if_pos rfl, hinit su.files (h2 rfl)]
                         simp
               | false => simp
  have hmodel : export_session_model proj su se ft pf sf oracle = none := by
    simp only [export_session_model, hjobs]
    rfl
  exact ⟨hmodel, by simp only [export_session_inner, hmodel]⟩

/-- C10 witness: a session carrying only a text file under the dicom
allowlist yields None from export_session and TypeError from its
caller. -/
theorem export_session_none_on_no_allowed_files_witness :
    export_session_model ⟨"p", [], []⟩ ⟨"su", [], []⟩
      ⟨"se", [⟨"notes.txt", "text"⟩], []⟩ ["dicom"] false false (fun _ => false) = none ∧
    export_session_inner ⟨"p", [], []⟩ ⟨"su", [], []⟩
      ⟨"se", [⟨"notes.txt", "text"⟩], []⟩ ["dicom"] false false (fun _ => false) none =
      .error "TypeError" :=
  export_session_none_on_no_allowed_files ⟨"p", [], []⟩ ⟨"su", [], []⟩
    ⟨"se", [⟨"notes.txt", "text"⟩], []⟩ ["dicom"] false false (fun _ => false)
    (fun h => absurd h (by decide)) (fun h => absurd h (by decide)) rfl rfl

/-- A template-derivation failure under subject scope aborts the run:
the except handler at line 626 references the project-loop variable
`subject`, never bound outside the project branch, so the handler itself
raises NameError even though the session has exportable files. -/
theorem derivation_failure_subject_scope_name_error :
    export_container_model
      (.subject ⟨"S", [], [⟨"s1", [⟨"scan.dcm", "dicom"⟩], []⟩]⟩) ⟨"p", [], []⟩
      ["dicom"] (fun _ => false) true (fun _ => true) = .error "NameError" := rfl

/-- A template-derivation failure under project scope is downgraded to a
synthesized error report, but that report is built against the
hard-coded ['dicom'] allowlist of line 598: with a template allowlist of
['nifti'] and a session holding only nifti files it comes back empty and
line 609 raises KeyError. -/
theorem derivation_failure_project_scope_key_error :
    export_container_model .project
      ⟨"p", [], [⟨"S", [], [⟨"s1", [⟨"scan.nii", "nifti"⟩], []⟩]⟩]⟩
      ["nifti"] (fun _ => false) true (fun _ => true) = .error "KeyError" := rfl

